import Mathlib

/-!
# Verification of the eToro trading-assistant data pipeline

Shallow embedding of the core of the repository (response normaliser,
candle / snapshot / report persistence, pipeline orchestrator) and proofs
of the specification claims about it.

Python values crossing the SurrealDB SDK boundary are modelled by the
inductive type `PyVal`; records are Python dicts, modelled as ordered
association lists of string keys.  Numeric payload fields (OHLCV prices,
credit, P&L) are modelled as `Int`: no claim computes with them beyond
addition and pass-through, so the float representation is irrelevant here.
The SurrealDB driver itself is external to the repository; where a claim
depends on its behaviour, the driver is modelled as an explicit parameter
(a response value or a state-transition function) whose semantics are
stated in the accompanying doc comment.
-/

namespace ETA

/-- A dynamically typed Python value as seen at the SurrealDB SDK boundary
(`None`, strings, numbers, dicts, lists).  Dicts are ordered association
lists, matching Python insertion order. -/
inductive PyVal where
  | none
  | str (s : String)
  | int (n : Int)
  | bool (b : Bool)
  | dict (d : List (String × PyVal))
  | list (xs : List PyVal)

/-- Python `key in d` for a dict. -/
def dictHasKey (d : List (String × PyVal)) (k : String) : Bool :=
  d.any (fun p => p.1 == k)

/-- Python `d[key]` / `d.get(key)` for a dict: the value at the first
occurrence of the key. -/
def dictGet (d : List (String × PyVal)) (k : String) : Option PyVal :=
  (d.find? (fun p => p.1 == k)).map Prod.snd

/-- Embedding of `agent.db.utils.normalise_response`: flatten an SDK
response into a plain list of records.  Follows the Python source branch
by branch: `None` → `[]`; a bare dict → singleton; an empty list → `[]`;
a list whose first element is a dict carrying a `"result"` key → the
unwrapped inner list/dict (or `[]` for any other inner shape); a list
whose first element is a plain dict → the list itself; anything else → `[]`. -/
def normalise_response (result : PyVal) : List PyVal :=
  match result with
  | .none => []
  | .dict d => [.dict d]
  | .list [] => []
  | .list (first :: rest) =>
      match first with
      | .dict d =>
          if dictHasKey d "result" then
            match dictGet d "result" with
            | some (.list inner) => inner
            | some (.dict d2) => [.dict d2]
            | _ => []
          else
            .dict d :: rest
      | _ => []
  | _ => []

/-- Embedding of `agent.db.utils.first_or_none`: the first record of the
normalised response, or `none` when there is no record. -/
def first_or_none (result : PyVal) : Option PyVal :=
  match normalise_response result with
  | [] => Option.none
  | x :: _ => some x

/-- Embedding of `surrealdb.RecordID` as used by the repository: a table
name plus a record key. -/
structure RecordID where
  table : String
  key : String
deriving Repr, DecidableEq

/-- Python `":" in id_str`: the character list contains a colon. -/
def containsColon : List Char → Bool
  | [] => false
  | c :: cs => c == ':' || containsColon cs

/-- Python `s.split(":", 1)` on the character list of a string whose
characters contain a colon: everything before the first `':'` and
everything after it. -/
def splitFirstColon : List Char → List Char × List Char
  | [] => ([], [])
  | c :: cs =>
      if c = ':' then ([], cs)
      else
        let p := splitFirstColon cs
        (c :: p.1, p.2)

/-- Embedding of `agent.db.reports._to_record_id`: parse a `"table:key"`
string strictly.  Raising `ValueError` is modelled as `Except.error` with
the message; Python's substring test `":" in id_str` for the single-char
needle is character containment, and the truthiness tests
`not table or not key` are emptiness of the split parts. -/
def to_record_id (id_str : String) : Except String RecordID :=
  if containsColon id_str.data = false then
    .error ("Invalid record id format (expected 'table:id'): " ++ id_str)
  else
    let p := splitFirstColon id_str.data
    if p.1.isEmpty || p.2.isEmpty then
      .error ("Invalid record id components in " ++ id_str)
    else
      .ok ⟨String.mk p.1, String.mk p.2⟩

/-! ## Candle persistence (`agent.db.candles`) -/

/-- Embedding of `agent.etoro.models.Candle` (the fields the candle
repository reads).  Timestamps are the ISO strings produced by
`candle.timestamp.isoformat()`; prices are modelled as `Int` since no
claim computes with them. -/
structure Candle where
  instrument_id : Int
  timestamp : String
  «open» : Int
  high : Int
  low : Int
  close : Int
  volume : Option Int
deriving Repr, DecidableEq

/-- A stored `candle` record: the object literal built by
`bulk_insert_candles` (instrument reference, timeframe, timestamp, OHLCV). -/
structure CandleRow where
  instrument : Int
  timeframe : String
  timestamp : String
  «open» : Int
  high : Int
  low : Int
  close : Int
  volume : Option Int
deriving Repr, DecidableEq

/-- The object literal `bulk_insert_candles` builds for one candle: the
instrument reference comes from the `instrument_etoro_id` argument, not
from the candle itself. -/
def candleToRow (etoro_id : Int) (timeframe : String) (c : Candle) : CandleRow :=
  { instrument := etoro_id, timeframe := timeframe, timestamp := c.timestamp,
    «open» := c.«open», high := c.high, low := c.low, close := c.close,
    volume := c.volume }

/-- Two rows agree on the compound unique index
`(instrument, timeframe, timestamp)`. -/
def sameCandleKey (x r : CandleRow) : Bool :=
  x.instrument == r.instrument && x.timeframe == r.timeframe
    && x.timestamp == r.timestamp

/-- A row violates the compound unique index against the stored state. -/
def conflicts (st : List CandleRow) (r : CandleRow) : Bool :=
  st.any (fun x => sameCandleKey x r)

/-- A SurrealDB `query()` response in the candle repository: either the
list of records produced by the statement, or an error surfaced by the
driver as a string. -/
inductive QueryResult where
  | rows (rs : List CandleRow)
  | errString (msg : String)
deriving Repr, DecidableEq

/-- Specialisation of `normalise_response` to the typed candle responses: a
record list normalises to itself, an error string to `[]` (the Python
normaliser's fallback branch). -/
def normaliseRows : QueryResult → List CandleRow
  | .rows rs => rs
  | .errString _ => []

/-- Specialisation of `first_or_none` to the typed candle responses. -/
def firstRowOrNone (q : QueryResult) : Option CandleRow :=
  (normaliseRows q).head?

/-- The driver error message SurrealDB returns when an insert violates the
compound unique index on `candle`. -/
def duplicateIndexError : String :=
  "Database index candle_unique_idx already contains duplicate"

/-- The needle occurs at the start of the character list. -/
def charsStartWith : List Char → List Char → Bool
  | [], _ => true
  | _ :: _, [] => false
  | a :: as, b :: bs => a == b && charsStartWith as bs

/-- The needle occurs somewhere in the character list (Python `in` on
strings). -/
def charsContain (needle : List Char) : List Char → Bool
  | [] => charsStartWith needle []
  | c :: cs => charsStartWith needle (c :: cs) || charsContain needle cs

/-- Python `"already contains" in result` for a string result. -/
def mentionsAlreadyContains (msg : String) : Bool :=
  charsContain "already contains".data msg.data

/-- Python `isinstance(result, str) and "already contains" in result`. -/
def isDuplicateError : QueryResult → Bool
  | .rows _ => false
  | .errString msg => mentionsAlreadyContains msg

/-- Driver semantics of a single-row `INSERT INTO candle` statement
against the compound unique index: a conflicting row leaves the store
unchanged and yields the index error string; otherwise the row is stored
and the created record is returned. -/
def insertOneStmt (st : List CandleRow) (r : CandleRow) :
    List CandleRow × QueryResult :=
  if conflicts st r then (st, .errString duplicateIndexError)
  else (st ++ [r], .rows [r])

/-- Row-by-row processing of the bulk `INSERT INTO candle [...]`
statement: the resulting store when no row conflicts, `none` as soon as
one row violates the index. -/
def insertAllRows : List CandleRow → List CandleRow → Option (List CandleRow)
  | st, [] => some st
  | st, r :: rs =>
      if conflicts st r then Option.none
      else insertAllRows (st ++ [r]) rs

/-- Driver semantics of the bulk `INSERT INTO candle [...]` statement: it
succeeds atomically, returning every created record, or fails as a whole
with the index error string and leaves the store unchanged.  This is the
SurrealDB behaviour the repository's fallback path in
`bulk_insert_candles` is written against. -/
def bulkStmt (st : List CandleRow) (rows : List CandleRow) :
    List CandleRow × QueryResult :=
  match insertAllRows st rows with
  | some st2 => (st2, .rows rows)
  | Option.none => (st, .errString duplicateIndexError)

/-- The fallback loop of `bulk_insert_candles`: insert each candle
individually, collecting the rows whose single-row insert returned a
record (`first_or_none`), skipping the duplicates. -/
def fallbackInserts : List CandleRow → List CandleRow →
    List CandleRow × List CandleRow
  | st, [] => (st, [])
  | st, r :: rs =>
      let p := insertOneStmt st r
      let rest := fallbackInserts p.1 rs
      match firstRowOrNone p.2 with
      | some row => (rest.1, row :: rest.2)
      | Option.none => (rest.1, rest.2)

/-- Embedding of `agent.db.candles.bulk_insert_candles`: empty input is a
no-op; otherwise try the bulk statement, and on a duplicate-index error
(`"already contains"` in a string result) fall back to row-by-row inserts
that skip only the duplicates.  Returns the new store and the list of
successfully inserted records. -/
def bulk_insert_candles (st : List CandleRow) (candles : List Candle)
    (instrument_etoro_id : Int) (timeframe : String) :
    List CandleRow × List CandleRow :=
  if candles.isEmpty then (st, [])
  else
    let rows := candles.map (candleToRow instrument_etoro_id timeframe)
    let p := bulkStmt st rows
    if isDuplicateError p.2 then
      fallbackInserts st (candles.map (candleToRow instrument_etoro_id timeframe))
    else
      (p.1, normaliseRows p.2)

/-- Reference description of sequential duplicate-skipping: the rows of
the batch that do not violate the index against the store as it grows,
processed left to right. -/
def seqNewRows : List CandleRow → List CandleRow → List CandleRow
  | _, [] => []
  | st, r :: rs =>
      if conflicts st r then seqNewRows st rs
      else r :: seqNewRows (st ++ [r]) rs

theorem conflicts_append_left (st ys : List CandleRow) (r : CandleRow)
    (h : conflicts st r = true) : conflicts (st ++ ys) r = true := by
  simp only [conflicts, List.any_append, Bool.or_eq_true]
  exact Or.inl h

theorem conflicts_of_mem (st : List CandleRow) (x r : CandleRow)
    (hx : x ∈ st) (h : sameCandleKey x r = true) : conflicts st r = true := by
  simp only [conflicts, List.any_eq_true]
  exact ⟨x, hx, h⟩

theorem sameCandleKey_refl (r : CandleRow) : sameCandleKey r r = true := by
  simp [sameCandleKey]

theorem fallbackInserts_eq_seqNewRows (rows st : List CandleRow) :
    fallbackInserts st rows = (st ++ seqNewRows st rows, seqNewRows st rows) := by
  induction rows generalizing st with
  | nil => simp [fallbackInserts, seqNewRows]
  | cons r rs ih =>
      by_cases h : conflicts st r = true
      · simp [fallbackInserts, insertOneStmt, h, firstRowOrNone, normaliseRows,
          seqNewRows, ih st]
      · simp [fallbackInserts, insertOneStmt, h, firstRowOrNone, normaliseRows,
          seqNewRows, ih (st ++ [r])]

theorem insertAllRows_some (rows : List CandleRow) :
    ∀ st st2, insertAllRows st rows = some st2 →
      st2 = st ++ rows ∧ seqNewRows st rows = rows := by
  induction rows with
  | nil =>
      intro st st2 h
      simp [insertAllRows] at h
      simp [seqNewRows, h]
  | cons r rs ih =>
      intro st st2 h
      by_cases hc : conflicts st r = true
      · simp [insertAllRows, hc] at h
      · simp only [insertAllRows, hc, if_false, ite_false] at h
        rcases ih (st ++ [r]) st2 h with ⟨h1, h2⟩
        refine ⟨by simp [h1], ?_⟩
        simp [seqNewRows, hc, h2]

theorem bulk_insert_candles_eq (st : List CandleRow) (candles : List Candle)
    (iid : Int) (tf : String) :
    bulk_insert_candles st candles iid tf =
      (st ++ seqNewRows st (candles.map (candleToRow iid tf)),
       seqNewRows st (candles.map (candleToRow iid tf))) := by
  by_cases he : candles.isEmpty
  · have : candles = [] := by
      cases candles with
      | nil => rfl
      | cons c cs => simp [List.isEmpty] at he
    subst this
    simp [bulk_insert_candles, seqNewRows]
  · unfold bulk_insert_candles
    simp only [he, if_false, ite_false]
    cases hins : insertAllRows st (candles.map (candleToRow iid tf)) with
    | some st2 =>
        rcases insertAllRows_some _ st st2 hins with ⟨h1, h2⟩
        simp [bulkStmt, hins, isDuplicateError, normaliseRows, h1, h2]
    | none =>
        have hdup : isDuplicateError (.errString duplicateIndexError) = true := by
          decide
        simp [bulkStmt, hins, hdup, fallbackInserts_eq_seqNewRows]

theorem mem_seqNewRows_not_conflicts (rows : List CandleRow) :
    ∀ st r, r ∈ seqNewRows st rows → conflicts st r = false := by
  induction rows with
  | nil => intro st r h; simp [seqNewRows] at h
  | cons x xs ih =>
      intro st r h
      by_cases hc : conflicts st x = true
      · simp only [seqNewRows, hc, if_true, ite_true] at h
        exact ih st r h
      · simp only [seqNewRows, hc, if_false, ite_false, List.mem_cons] at h
        cases h with
        | head =>
            exact Bool.eq_false_iff.mpr hc
        | tail _ hmem =>
          have := ih (st ++ [x]) r hmem
          cases hcr : conflicts st r with
          | false => rfl
          | true =>
              exact absurd (conflicts_append_left st [x] r hcr)
                (by simp [this])

theorem seqNewRows_keys_present (rows : List CandleRow) :
    ∀ st r, r ∈ rows → conflicts (st ++ seqNewRows st rows) r = true := by
  induction rows with
  | nil => intro st r h; simp at h
  | cons x xs ih =>
      intro st r h
      rcases List.mem_cons.mp h with heq | hmem
      · rw [heq]
        by_cases hc : conflicts st x = true
        · exact conflicts_append_left st _ x hc
        · simp only [seqNewRows, hc, if_false, ite_false]
          exact conflicts_of_mem _ x x (by simp) (sameCandleKey_refl x)
      · by_cases hc : conflicts st x = true
        · simp only [seqNewRows, hc, if_true, ite_true]
          exact ih st r hmem
        · simp only [seqNewRows, hc, if_false, ite_false]
          have := ih (st ++ [x]) r hmem
          simpa [List.append_assoc] using this

theorem seqNewRows_all_conflict (rows : List CandleRow) :
    ∀ st, (∀ r ∈ rows, conflicts st r = true) → seqNewRows st rows = [] := by
  induction rows with
  | nil => intro st _; rfl
  | cons x xs ih =>
      intro st h
      have hx : conflicts st x = true := h x (by simp)
      simp only [seqNewRows, hx, if_true, ite_true]
      exact ih st (fun r hr => h r (List.mem_cons_of_mem x hr))

/-- C1: `bulk_insert_candles` performs row-level duplicate skipping — the
store gains exactly the batch rows that do not violate the compound
`(instrument, timeframe, timestamp)` index (processed in order), those
rows are exactly the returned records, every returned record was
conflict-free against the prior store — and it is idempotent: a second
call with the same batch inserts nothing, leaves the store unchanged, and
the stored count after the second call equals the count after the first. -/
theorem C1_bulk_insert_idempotent (st : List CandleRow) (candles : List Candle)
    (iid : Int) (tf : String) :
    (bulk_insert_candles st candles iid tf =
        (st ++ seqNewRows st (candles.map (candleToRow iid tf)),
         seqNewRows st (candles.map (candleToRow iid tf))))
    ∧ (∀ r ∈ (bulk_insert_candles st candles iid tf).2, conflicts st r = false)
    ∧ (bulk_insert_candles (bulk_insert_candles st candles iid tf).1 candles iid tf
        = ((bulk_insert_candles st candles iid tf).1, []))
    ∧ ((bulk_insert_candles (bulk_insert_candles st candles iid tf).1 candles iid tf).1.length
        = (bulk_insert_candles st candles iid tf).1.length) := by
  have heq := bulk_insert_candles_eq st candles iid tf
  set rows := candles.map (candleToRow iid tf) with hrows
  have hsecond :
      bulk_insert_candles (bulk_insert_candles st candles iid tf).1 candles iid tf
        = ((bulk_insert_candles st candles iid tf).1, []) := by
    have heq2 := bulk_insert_candles_eq (st ++ seqNewRows st rows) candles iid tf
    have hall : ∀ r ∈ rows, conflicts (st ++ seqNewRows st rows) r = true :=
      fun r hr => seqNewRows_keys_present rows st r hr
    have hnil : seqNewRows (st ++ seqNewRows st rows) rows = [] :=
      seqNewRows_all_conflict rows _ hall
    rw [heq]
    simpa [hnil] using heq2
  refine ⟨heq, ?_, hsecond, by rw [hsecond]⟩
  intro r hr
  rw [heq] at hr
  exact mem_seqNewRows_not_conflicts rows st r hr

/-! ## Response-normaliser and record-id claims -/

/-- C5: `normalise_response` is pure and total (a total Lean function by
construction — no branch raises) and maps every documented driver shape
to the canonical ordered record list: `None` and every malformed or empty
shape to `[]`, a single record dict to a singleton, a list of record
dicts to itself in order, and a singleton wrapper dict holding an inner
list / dict / null under the `"result"` key to that inner list, a
singleton, or `[]`; `first_or_none` is the head of that canonical list,
or `none` when it is empty. -/
theorem C5_normalise_response_canonical :
    (normalise_response .none = [])
    ∧ (∀ d, normalise_response (.dict d) = [.dict d])
    ∧ (normalise_response (.list []) = [])
    ∧ (∀ d rest, dictHasKey d "result" = false →
        normalise_response (.list (.dict d :: rest)) = .dict d :: rest)
    ∧ (∀ inner extra,
        normalise_response (.list [.dict (("result", .list inner) :: extra)])
          = inner)
    ∧ (∀ d2 extra,
        normalise_response (.list [.dict (("result", .dict d2) :: extra)])
          = [.dict d2])
    ∧ (∀ extra,
        normalise_response (.list [.dict (("result", .none) :: extra)]) = [])
    ∧ (∀ s rest, normalise_response (.list (.str s :: rest)) = [])
    ∧ (∀ s, normalise_response (.str s) = [])
    ∧ (∀ n, normalise_response (.int n) = [])
    ∧ (∀ b, normalise_response (.bool b) = [])
    ∧ (∀ v, first_or_none v = (normalise_response v).head?) := by
  refine ⟨rfl, fun d => rfl, rfl, ?_, ?_, ?_, ?_, fun s rest => rfl,
    fun s => rfl, fun n => rfl, fun b => rfl, ?_⟩
  · intro d rest h
    simp [normalise_response, h]
  · intro inner extra
    simp [normalise_response, dictHasKey, dictGet]
  · intro d2 extra
    simp [normalise_response, dictHasKey, dictGet]
  · intro extra
    simp [normalise_response, dictHasKey, dictGet]
  · intro v
    cases hv : normalise_response v with
    | nil => simp [first_or_none, hv]
    | cons x xs => simp [first_or_none, hv]

/-- Closed witness for C5: a two-record list normalises to itself and a
wrapper singleton unwraps its inner list. -/
theorem C5_normalise_response_canonical_witness :
    normalise_response
        (.list [.dict [("a", .int 1)], .dict [("b", .int 2)]])
      = [.dict [("a", .int 1)], .dict [("b", .int 2)]] :=
  C5_normalise_response_canonical.2.2.2.1 [("a", .int 1)]
    [.dict [("b", .int 2)]] (by decide)

theorem containsColon_append (a b : List Char) :
    containsColon (a ++ b) = (containsColon a || containsColon b) := by
  induction a with
  | nil => simp [containsColon]
  | cons c cs ih => simp [containsColon, ih, Bool.or_assoc]

theorem splitFirstColon_append (t k : List Char)
    (h : containsColon t = false) : splitFirstColon (t ++ ':' :: k) = (t, k) := by
  induction t with
  | nil => simp [splitFirstColon]
  | cons c cs ih =>
      simp only [containsColon, Bool.or_eq_false_iff, beq_eq_false_iff_ne,
        ne_eq] at h
      simp [splitFirstColon, h.1, ih h.2]

theorem splitFirstColon_spec (l : List Char) (h : containsColon l = true) :
    l = (splitFirstColon l).1 ++ ':' :: (splitFirstColon l).2
      ∧ containsColon (splitFirstColon l).1 = false := by
  induction l with
  | nil => simp [containsColon] at h
  | cons c cs ih =>
      by_cases hc : c = ':'
      · subst hc
        simp [splitFirstColon, containsColon]
      · simp only [containsColon, Bool.or_eq_true, beq_iff_eq] at h
        rcases h with h | h
        · exact absurd h hc
        · rcases ih h with ⟨h1, h2⟩
          constructor
          · simp only [splitFirstColon, hc, if_false, ite_false]
            exact congrArg (c :: ·) h1
          · simp [splitFirstColon, hc, containsColon, h2]

/-- C9: `"table:key"` identifier strings are parsed strictly — a string
with no colon is rejected, a successful parse yields nonempty table and
key parts that reassemble the input with the key being everything after
the first colon, every well-formed `table ++ ":" ++ key` input parses to
exactly that record reference, and an empty table or key part is
rejected.  Rejection (`Except.error`) models the `ValueError` raised
before the value can reach storage. -/
theorem C9_to_record_id_strict :
    (∀ s : String, containsColon s.data = false →
        ∃ m, to_record_id s = .error m)
    ∧ (∀ (s : String) (r : RecordID), to_record_id s = .ok r →
        r.table.data ≠ [] ∧ r.key.data ≠ []
          ∧ s.data = r.table.data ++ ':' :: r.key.data
          ∧ containsColon r.table.data = false)
    ∧ (∀ t k : String, containsColon t.data = false →
        t.data ≠ [] → k.data ≠ [] →
        to_record_id (t ++ ":" ++ k) = .ok ⟨t, k⟩)
    ∧ (∀ t k : String, containsColon t.data = false →
        (t.data = [] ∨ k.data = []) →
        ∃ m, to_record_id (t ++ ":" ++ k) = .error m) := by
  have hdata : ∀ t k : String, (t ++ ":" ++ k).data = t.data ++ ':' :: k.data := by
    intro t k
    cases t with
    | mk td =>
        cases k with
        | mk kd => simp [String.data_append]
  refine ⟨?_, ?_, ?_, ?_⟩
  · intro s h
    exact ⟨"Invalid record id format (expected 'table:id'): " ++ s,
      by simp [to_record_id, h]⟩
  · intro s r h
    simp only [to_record_id] at h
    by_cases hc : containsColon s.data = false
    · rw [if_pos hc] at h
      simp at h
    · rw [if_neg hc] at h
      have hc2 : containsColon s.data = true := by
        cases hcc : containsColon s.data with
        | false => exact absurd hcc hc
        | true => rfl
      by_cases hemp : ((splitFirstColon s.data).1.isEmpty
          || (splitFirstColon s.data).2.isEmpty) = true
      · rw [if_pos hemp] at h
        simp at h
      · rw [if_neg hemp] at h
        rcases splitFirstColon_spec s.data hc2 with ⟨h1, h2⟩
        simp only [Bool.or_eq_true, List.isEmpty_iff] at hemp
        push_neg at hemp
        cases h
        exact ⟨hemp.1, hemp.2, h1, h2⟩
  · intro t k hfree ht hk
    rw [to_record_id, hdata t k, containsColon_append]
    simp only [hfree, containsColon, beq_self_eq_true, Bool.true_or,
      Bool.false_or, Bool.true_eq_false, if_false, ite_false]
    rw [splitFirstColon_append t.data k.data hfree]
    simp [List.isEmpty_iff, ht, hk]
  · intro t k hfree hemp
    refine ⟨"Invalid record id components in " ++ (t ++ ":" ++ k), ?_⟩
    rw [to_record_id, hdata t k, containsColon_append]
    simp only [hfree, containsColon, beq_self_eq_true, Bool.true_or,
      Bool.false_or, Bool.true_eq_false, if_false, ite_false]
    rw [splitFirstColon_append t.data k.data hfree]
    rcases hemp with h | h <;> simp [List.isEmpty_iff, h]

/-- Closed witness for C9: `"report:abc123"` parses to the record
reference `(report, abc123)` and `":x"` is rejected. -/
theorem C9_to_record_id_strict_witness :
    to_record_id ("report" ++ ":" ++ "abc123")
      = .ok ⟨"report", "abc123"⟩ :=
  C9_to_record_id_strict.2.2.1 "report" "abc123" (by decide) (by decide)
    (by decide)

/-! ## Snapshot and report/recommendation persistence
(`agent.db.snapshots`, `agent.db.reports`) -/

/-- The exception class raised by a repository operation: the snapshot and
report creators raise `RuntimeError`, the recommendation identity check
(and `_to_record_id`) raise `ValueError`. -/
inductive RepoError where
  | runtimeError (msg : String)
  | valueError (msg : String)
deriving Repr, DecidableEq

/-- Embedding of `agent.etoro.models.Position` (the fields the core
reads).  Monetary fields are dropped: the pipeline only reads
`instrument_id` and the array length. -/
structure Position where
  position_id : Int
  instrument_id : Int
deriving Repr, DecidableEq

/-- Embedding of `agent.etoro.models.ClientPortfolio` (the fields the
core reads). -/
structure ClientPortfolio where
  positions : List Position
  credit : Int
  unrealized_pnl : Option Int
deriving Repr, DecidableEq

/-- The record dict built by `agent.db.snapshots._portfolio_to_record`. -/
structure SnapshotData where
  total_value : Int
  cash_available : Int
  open_positions : Nat
  total_pnl : Int
  positions : List Position
  run_type : String
deriving Repr, DecidableEq

/-- Embedding of `agent.db.snapshots._portfolio_to_record`:
`total_pnl = unrealized_pnl or 0.0`, `total_value = credit + total_pnl`,
`open_positions = len(positions)`. -/
def portfolio_to_record (portfolio : ClientPortfolio) (run_type : String) :
    SnapshotData :=
  let total_pnl := portfolio.unrealized_pnl.getD 0
  { total_value := portfolio.credit + total_pnl
    cash_available := portfolio.credit
    open_positions := portfolio.positions.length
    total_pnl := total_pnl
    positions := portfolio.positions
    run_type := run_type }

/-- A storage operation issued through the SurrealDB handle by the
snapshot repository: a fresh `create` on a table, or an `upsert` keyed by
a record id. -/
inductive DbOp where
  | createOp (table : String) (data : SnapshotData)
  | upsertOp (recordId : RecordID) (data : SnapshotData)
deriving Repr, DecidableEq

/-- Embedding of `agent.db.snapshots.create_snapshot`.  The SurrealDB
handle is modelled as a function from the issued operation to the
driver's raw response; the function returns the list of operations it
issued together with the outcome (`first_or_none` of the response, or the
`RuntimeError` when no record came back). -/
def create_snapshot (driver : DbOp → PyVal) (portfolio : ClientPortfolio)
    (run_type : String) : List DbOp × Except RepoError PyVal :=
  let data := portfolio_to_record portfolio run_type
  let result := driver (.createOp "portfolio_snapshot" data)
  ([.createOp "portfolio_snapshot" data],
    match first_or_none result with
    | Option.none =>
        .error (.runtimeError "Failed to create portfolio snapshot in SurrealDB")
    | some created => .ok created)

/-- Embedding of `agent.db.reports.create_report`'s response check: the
created record is `first_or_none` of the driver response, and a missing
record raises `RuntimeError`. -/
def create_report_check (result : PyVal) : Except RepoError PyVal :=
  match first_or_none result with
  | Option.none => .error (.runtimeError "Failed to create report record in SurrealDB")
  | some created => .ok created

/-- The record dict built by `agent.db.reports.create_recommendation`
before it is handed to `db.create("recommendation", data)`. -/
structure RecommendationData where
  report : RecordID
  instrument : RecordID
  action : String
  conviction : String
  reasoning : String
  analysis : RecordID
deriving Repr, DecidableEq

/-- Embedding of `agent.db.reports.create_recommendation`.  The record-id
strings are parsed strictly first (their `ValueError` propagates), then
the driver is called and the created value must be a dict carrying an
`"id"` key; otherwise the distinct `ValueError` is raised.  The integer
key of `RecordID("instrument", instrument_etoro_id)` is its decimal
string. -/
def create_recommendation (driver : RecommendationData → PyVal)
    (report_id : String) (instrument_etoro_id : Int)
    (action conviction reasoning : String) (analysis_id : String) :
    Except RepoError PyVal :=
  match to_record_id report_id with
  | .error m => .error (.valueError m)
  | .ok report_ref =>
  match to_record_id analysis_id with
  | .error m => .error (.valueError m)
  | .ok analysis_ref =>
      let data : RecommendationData :=
        { report := report_ref
          instrument := ⟨"instrument", toString instrument_etoro_id⟩
          action := action
          conviction := conviction
          reasoning := reasoning
          analysis := analysis_ref }
      let result := driver data
      match first_or_none result with
      | some (.dict d) =>
          if dictHasKey d "id" then .ok (.dict d)
          else .error (.valueError "Failed to create recommendation record in SurrealDB")
      | _ => .error (.valueError "Failed to create recommendation record in SurrealDB")

/-- C6: `create_snapshot` issues exactly one storage operation — a fresh
`create` on `portfolio_snapshot` with the mapped portfolio record, never
an `upsert` — and it raises if and only if the underlying write returned
no created record; when a record came back it is returned, and when none
did the `RuntimeError` is raised rather than a default being returned. -/
theorem C6_create_snapshot_fresh_insert_fails_loudly
    (driver : DbOp → PyVal) (portfolio : ClientPortfolio) (run_type : String) :
    ((create_snapshot driver portfolio run_type).1
        = [.createOp "portfolio_snapshot" (portfolio_to_record portfolio run_type)])
    ∧ (∀ op ∈ (create_snapshot driver portfolio run_type).1,
        ∀ rid d, op ≠ .upsertOp rid d)
    ∧ ((∃ e, (create_snapshot driver portfolio run_type).2 = .error e)
        ↔ first_or_none
            (driver (.createOp "portfolio_snapshot"
              (portfolio_to_record portfolio run_type))) = Option.none)
    ∧ (first_or_none (driver (.createOp "portfolio_snapshot"
          (portfolio_to_record portfolio run_type))) = Option.none →
        (create_snapshot driver portfolio run_type).2
          = .error (.runtimeError "Failed to create portfolio snapshot in SurrealDB"))
    ∧ (∀ created,
        first_or_none (driver (.createOp "portfolio_snapshot"
          (portfolio_to_record portfolio run_type))) = some created →
        (create_snapshot driver portfolio run_type).2 = .ok created) := by
  refine ⟨rfl, ?_, ?_, ?_, ?_⟩
  · intro op hop rid d
    simp only [create_snapshot, List.mem_singleton] at hop
    subst hop
    intro h
    exact DbOp.noConfusion h
  · constructor
    · rintro ⟨e, he⟩
      simp only [create_snapshot] at he
      cases hfo : first_or_none (driver (.createOp "portfolio_snapshot"
          (portfolio_to_record portfolio run_type))) with
      | none => rfl
      | some created => rw [hfo] at he; simp at he
    · intro h
      exact ⟨.runtimeError "Failed to create portfolio snapshot in SurrealDB",
        by simp [create_snapshot, h]⟩
  · intro h
    simp [create_snapshot, h]
  · intro created h
    simp [create_snapshot, h]

/-- Closed witness for C6: a driver whose write returns no record makes
`create_snapshot` raise the `RuntimeError`, after issuing only the fresh
insert. -/
theorem C6_create_snapshot_witness :
    (create_snapshot (fun _ => PyVal.none) ⟨[], 100, some 5⟩ "market_open").2
      = .error (.runtimeError "Failed to create portfolio snapshot in SurrealDB") :=
  (C6_create_snapshot_fresh_insert_fails_loudly (fun _ => PyVal.none)
    ⟨[], 100, some 5⟩ "market_open").2.2.2.1 rfl

/-- C8: `create_recommendation` validates the identity of the created
record — success is only possible with a dict carrying an `"id"` key
(never a best-effort default), any failure is a `ValueError`, a created
value without identity yields exactly the recommendation `ValueError`,
and that error is distinct from the `RuntimeError` used by the report and
snapshot creators. -/
theorem C8_create_recommendation_identity
    (driver : RecommendationData → PyVal) (report_id : String)
    (instrument_etoro_id : Int) (action conviction reasoning : String)
    (analysis_id : String) (report_ref analysis_ref : RecordID)
    (hrep : to_record_id report_id = .ok report_ref)
    (hana : to_record_id analysis_id = .ok analysis_ref) :
    (∀ r, create_recommendation driver report_id instrument_etoro_id
        action conviction reasoning analysis_id = .ok r →
        ∃ d, r = .dict d ∧ dictHasKey d "id" = true)
    ∧ (∀ e, create_recommendation driver report_id instrument_etoro_id
        action conviction reasoning analysis_id = .error e →
        ∃ m, e = .valueError m)
    ∧ ((∀ d, first_or_none (driver
          { report := report_ref
            instrument := ⟨"instrument", toString instrument_etoro_id⟩
            action := action
            conviction := conviction
            reasoning := reasoning
            analysis := analysis_ref }) = some (.dict d) →
          dictHasKey d "id" = false) →
        create_recommendation driver report_id instrument_etoro_id
            action conviction reasoning analysis_id
          = .error (.valueError "Failed to create recommendation record in SurrealDB"))
    ∧ (∀ m m2, RepoError.valueError m ≠ RepoError.runtimeError m2) := by
  refine ⟨?_, ?_, ?_, fun m m2 h => RepoError.noConfusion h⟩
  · intro r hr
    simp only [create_recommendation, hrep, hana] at hr
    split at hr
    next d heq =>
      split at hr
      next hid => exact ⟨d, (Except.ok.inj hr).symm, hid⟩
      next hid => exact absurd hr (by simp)
    next heq => exact absurd hr (by simp)
  · intro e he
    simp only [create_recommendation, hrep, hana] at he
    split at he
    next d heq =>
      split at he
      next hid => exact absurd he (by simp)
      next hid => exact ⟨_, (Except.error.inj he).symm⟩
    next heq => exact ⟨_, (Except.error.inj he).symm⟩
  · intro hnoid
    simp only [create_recommendation, hrep, hana]
    split
    next d heq =>
      rw [if_neg]
      simp [hnoid d heq]
    next heq => rfl

/-- Closed witness for C8: a driver returning a record without an `"id"`
field makes `create_recommendation` raise the distinct `ValueError`. -/
theorem C8_create_recommendation_identity_witness :
    create_recommendation (fun _ => .dict [("action", .str "buy")])
        "report:r1" 42 "buy" "high" "because" "analysis:a1"
      = .error (.valueError "Failed to create recommendation record in SurrealDB") :=
  (C8_create_recommendation_identity (fun _ => .dict [("action", .str "buy")])
      "report:r1" 42 "buy" "high" "because" "analysis:a1"
      ⟨"report", "r1"⟩ ⟨"analysis", "a1"⟩ (by rfl) (by rfl)).2.2.1
    (fun d hd => by
      have h2 : PyVal.dict [("action", PyVal.str "buy")] = PyVal.dict d := by
        simpa [first_or_none, normalise_response] using hd
      injection h2 with h3
      rw [← h3]
      decide)

/-! ## Pipeline orchestrator (`agent.orchestrator`)

The external collaborators are modelled by `Env`: the portfolio fetch
(`get_portfolio`), the batched catalog fetch of `_resolve_instruments`,
and `get_candles` per instrument, each either succeeding with parsed data
or failing with an `EToroError` message (the typed failure of the client
contract; HTTP retries live inside the client).  The SurrealDB handle is
modelled as functioning storage (`DB`): `create` on `portfolio_snapshot`
auto-generates the record id from the table size, `upsert` on
`instrument` replaces by key, and candle inserts follow the statement
semantics above.  Every externally visible call the pipeline makes is
recorded in an `Eff` trace. -/

/-- Embedding of `agent.etoro.models.Instrument` (the fields the core
reads). -/
structure Instrument where
  instrument_id : Int
  symbol : String
  name : String
  instrument_type_id : Int
  exchange_id : Option Int
deriving Repr, DecidableEq

/-- One item of the instrument catalog response
(`InstrumentSearchResponse.items`): its `instrumentID` entry if present,
and the parsed `Instrument` when `Instrument.model_validate` succeeds on
it. -/
structure CatalogItem where
  instrumentID : Option Int
  parsed : Option Instrument
deriving Repr, DecidableEq

/-- The external collaborators of one pipeline run. -/
structure Env where
  portfolio : Except String ClientPortfolio
  catalog : Except String (List CatalogItem)
  candles : Int → Except String (List Candle)

/-- A stored `portfolio_snapshot` record: auto-generated id plus the
snapshot data. -/
structure SnapshotRecord where
  id : String
  data : SnapshotData
deriving Repr, DecidableEq

/-- The SurrealDB store the pipeline writes to. -/
structure DB where
  snapshots : List SnapshotRecord
  instruments : List (Int × Instrument)
  candles : List CandleRow
deriving Repr, DecidableEq

/-- Externally visible calls made by one pipeline run. -/
inductive Eff where
  | portfolioFetch
  | snapshotCreate
  | catalogFetch
  | instrumentUpsert (iid : Int)
  | candleFetch (iid : Int)
  | candleInsert (iid : Int)
deriving Repr, DecidableEq

/-- Embedding of `agent.db.instruments.upsert_instrument` on the store:
full replacement keyed by the eToro id (`instrument:<etoro_id>`). -/
def upsertInstr : List (Int × Instrument) → Instrument → List (Int × Instrument)
  | [], ins => [(ins.instrument_id, ins)]
  | (k, v) :: rest, ins =>
      if k = ins.instrument_id then (k, ins) :: rest
      else (k, v) :: upsertInstr rest ins

/-- Python dict assignment `result[iid] = ins`: replace in place or
append. -/
def dictSetInstr : List (Int × Instrument) → Int → Instrument → List (Int × Instrument)
  | [], k, v => [(k, v)]
  | (k0, v0) :: rest, k, v =>
      if k0 = k then (k0, v) :: rest
      else (k0, v0) :: dictSetInstr rest k v

/-- Python `iid in instrument_map` / `instrument_map[iid]`. -/
def lookupInstr (m : List (Int × Instrument)) (k : Int) : Option Instrument :=
  (m.find? (fun p => p.1 == k)).map Prod.snd

/-- Embedding of `Orchestrator._resolve_instruments`: a failing catalog
fetch (`EToroError`) yields the empty map; otherwise every item whose
`instrumentID` is in the wanted set and which parses as an `Instrument`
is collected, keyed by that id (items failing per-item validation are
skipped). -/
def resolve_instruments (env : Env) (instrument_ids : List Int) :
    List (Int × Instrument) :=
  match env.catalog with
  | .error _ => []
  | .ok items =>
      items.foldl
        (fun result item =>
          match item.instrumentID with
          | some iid =>
              if iid ∈ instrument_ids then
                match item.parsed with
                | some ins => dictSetInstr result iid ins
                | Option.none => result
              else result
          | Option.none => result)
        []

/-- Sorted insertion into an ascending list of integers. -/
def insertAsc (x : Int) : List Int → List Int
  | [] => [x]
  | y :: ys => if x ≤ y then x :: y :: ys else y :: insertAsc x ys

/-- Python `sorted(...)` (ascending) of a list of integers. -/
def sortAsc (l : List Int) : List Int := l.foldr insertAsc []

/-- Outcome of the `try` body for one instrument inside the pipeline
loop. -/
structure StepResult where
  db : DB
  outcome : Except String Nat
  effs : List Eff
deriving Repr

/-- One iteration of the per-instrument loop of `run_data_pipeline`:
upsert the instrument's metadata when it was resolved, then fetch its
candles and bulk-insert them with timeframe `"1d"`.  A candle-fetch
failure is the caught exception; its message becomes the error outcome,
and the metadata upsert that already happened is kept. -/
def process_instrument (env : Env) (imap : List (Int × Instrument))
    (db : DB) (iid : Int) : StepResult :=
  let up :=
    match lookupInstr imap iid with
    | some ins =>
        ({ db with instruments := upsertInstr db.instruments ins },
         [Eff.instrumentUpsert iid])
    | Option.none => (db, [])
  match env.candles iid with
  | .error e => { db := up.1, outcome := .error e, effs := up.2 ++ [.candleFetch iid] }
  | .ok cs =>
      let p := bulk_insert_candles up.1.candles cs iid "1d"
      { db := { up.1 with candles := p.1 }
        outcome := .ok p.2.length
        effs := up.2 ++ [.candleFetch iid, .candleInsert iid] }

/-- Accumulated result of the per-instrument loop. -/
structure LoopResult where
  db : DB
  processed : List Int
  counts : List (Int × Nat)
  errors : List (Int × String)
  effs : List Eff
deriving Repr

/-- The per-instrument loop of `run_data_pipeline`: each instrument id in
order is processed; success appends it to `instruments_processed` and
records its inserted-candle count, failure appends an
`(instrument_id, error)` record and continues with the next id. -/
def process_instruments (env : Env) (imap : List (Int × Instrument)) :
    DB → List Int → LoopResult
  | db, [] => { db := db, processed := [], counts := [], errors := [], effs := [] }
  | db, iid :: rest =>
      let step := process_instrument env imap db iid
      let next := process_instruments env imap step.db rest
      match step.outcome with
      | .ok n =>
          { db := next.db, processed := iid :: next.processed,
            counts := (iid, n) :: next.counts, errors := next.errors,
            effs := step.effs ++ next.effs }
      | .error e =>
          { db := next.db, processed := next.processed,
            counts := next.counts, errors := (iid, e) :: next.errors,
            effs := step.effs ++ next.effs }

/-- The exception escaping `run_data_pipeline`: the `ValueError` of
run-type validation, or the `PipelineError` wrapping a fatal portfolio
fetch failure. -/
inductive PipelineFailure where
  | valueError (msg : String)
  | pipelineError (msg : String)
deriving Repr, DecidableEq

/-- The summary dict returned by `run_data_pipeline`. -/
structure Summary where
  run_id : String
  run_type : String
  snapshot_id : String
  instruments_processed : Nat
  instruments_failed : Nat
  candle_counts : List (Int × Nat)
  errors : List (Int × String)
deriving Repr, DecidableEq

/-- Embedding of `Orchestrator.run_data_pipeline`.  `run_id` is the fresh
UUID, supplied by the environment.  Steps: validate the run type before
any I/O; fetch the portfolio (an `EToroError` is wrapped into
`PipelineError` and re-raised); persist the snapshot (the modelled driver
stores it under an auto-generated id); extract the sorted deduplicated
instrument ids and return immediately when there are none; otherwise
resolve metadata with one catalog fetch and run the per-instrument loop;
finally assemble the summary. -/
def run_data_pipeline (env : Env) (db : DB) (run_id : String)
    (run_type : String) : Except PipelineFailure Summary × DB × List Eff :=
  if ¬(run_type = "market_open" ∨ run_type = "market_close") then
    (.error (.valueError ("Invalid run_type: " ++ run_type
        ++ ". Must be \x22market_open\x22 or \x22market_close\x22.")), db, [])
  else
    match env.portfolio with
    | .error e =>
        (.error (.pipelineError ("Portfolio fetch failed: " ++ e)), db,
         [.portfolioFetch])
    | .ok portfolio =>
        let data := portfolio_to_record portfolio run_type
        let snapshot_id := "portfolio_snapshot:" ++ toString db.snapshots.length
        let db1 : DB := { db with snapshots := db.snapshots ++ [⟨snapshot_id, data⟩] }
        let instrument_ids :=
          sortAsc (portfolio.positions.map (·.instrument_id)).dedup
        if instrument_ids.isEmpty then
          (.ok { run_id := run_id, run_type := run_type,
                 snapshot_id := snapshot_id, instruments_processed := 0,
                 instruments_failed := 0, candle_counts := [], errors := [] },
           db1, [.portfolioFetch, .snapshotCreate])
        else
          let instrument_map := resolve_instruments env instrument_ids
          let loop := process_instruments env instrument_map db1 instrument_ids
          (.ok { run_id := run_id, run_type := run_type,
                 snapshot_id := snapshot_id,
                 instruments_processed := loop.processed.length,
                 instruments_failed := loop.errors.length,
                 candle_counts := loop.counts, errors := loop.errors },
           loop.db,
           [.portfolioFetch, .snapshotCreate, .catalogFetch] ++ loop.effs)

/-! ## Pipeline lemmas and claims -/

/-- Number of stored candle rows for one instrument. -/
def countRowsFor (st : List CandleRow) (iid : Int) : Nat :=
  (st.filter (fun r => r.instrument == iid)).length

theorem seqNewRows_subset (rows : List CandleRow) :
    ∀ st r, r ∈ seqNewRows st rows → r ∈ rows := by
  induction rows with
  | nil => intro st r h; simp [seqNewRows] at h
  | cons x xs ih =>
      intro st r h
      by_cases hc : conflicts st x = true
      · simp only [seqNewRows, hc, if_true, ite_true] at h
        exact List.mem_cons_of_mem x (ih st r h)
      · simp only [seqNewRows, hc, if_false, ite_false] at h
        cases h with
        | head => exact List.mem_cons_self x xs
        | tail _ hmem => exact List.mem_cons_of_mem x (ih (st ++ [x]) r hmem)

theorem bulk_insert_provenance (st : List CandleRow) (cs : List Candle)
    (iid : Int) (tf : String) :
    ∀ r ∈ (bulk_insert_candles st cs iid tf).1, r ∈ st ∨ r.instrument = iid := by
  intro r hr
  rw [bulk_insert_candles_eq] at hr
  rcases List.mem_append.mp hr with h | h
  · exact Or.inl h
  · right
    have := seqNewRows_subset _ _ _ h
    rcases List.mem_map.mp this with ⟨c, _, hc⟩
    rw [← hc]
    rfl

theorem countRowsFor_append_self (st xs : List CandleRow) (iid : Int)
    (h : ∀ x ∈ xs, x.instrument = iid) :
    countRowsFor (st ++ xs) iid = countRowsFor st iid + xs.length := by
  unfold countRowsFor
  rw [List.filter_append, List.length_append]
  congr 1
  rw [List.filter_length_eq_length.mpr]
  intro x hx
  simp [h x hx]

theorem countRowsFor_append_other (st xs : List CandleRow) (iid j : Int)
    (hj : j ≠ iid) (h : ∀ x ∈ xs, x.instrument = iid) :
    countRowsFor (st ++ xs) j = countRowsFor st j := by
  unfold countRowsFor
  rw [List.filter_append]
  have : xs.filter (fun r => r.instrument == j) = [] := by
    rw [List.filter_eq_nil_iff]
    intro x hx
    simp [h x hx, hj]
    intro heq
    exact absurd heq.symm hj
  simp [this]

theorem bulk_rows_instrument (st : List CandleRow) (cs : List Candle)
    (iid : Int) (tf : String) :
    ∀ x ∈ seqNewRows st (cs.map (candleToRow iid tf)), x.instrument = iid := by
  intro x hx
  have := seqNewRows_subset _ _ _ hx
  rcases List.mem_map.mp this with ⟨c, _, hc⟩
  rw [← hc]
  rfl

theorem bulk_insert_count_self (st : List CandleRow) (cs : List Candle)
    (iid : Int) (tf : String) :
    countRowsFor (bulk_insert_candles st cs iid tf).1 iid
      = countRowsFor st iid + (bulk_insert_candles st cs iid tf).2.length := by
  rw [bulk_insert_candles_eq]
  exact countRowsFor_append_self st _ iid (bulk_rows_instrument st cs iid tf)

theorem bulk_insert_count_other (st : List CandleRow) (cs : List Candle)
    (iid : Int) (tf : String) (j : Int) (hj : j ≠ iid) :
    countRowsFor (bulk_insert_candles st cs iid tf).1 j = countRowsFor st j := by
  rw [bulk_insert_candles_eq]
  exact countRowsFor_append_other st _ iid j hj (bulk_rows_instrument st cs iid tf)

theorem process_instrument_fetch_error (env : Env)
    (imap : List (Int × Instrument)) (db : DB) (iid : Int) (e : String)
    (hc : env.candles iid = .error e) :
    (process_instrument env imap db iid).outcome = .error e
    ∧ (process_instrument env imap db iid).db.candles = db.candles
    ∧ (process_instrument env imap db iid).db.snapshots = db.snapshots := by
  cases h : lookupInstr imap iid <;> simp [process_instrument, h, hc]

theorem process_instrument_fetch_ok (env : Env)
    (imap : List (Int × Instrument)) (db : DB) (iid : Int) (cs : List Candle)
    (hc : env.candles iid = .ok cs) :
    (process_instrument env imap db iid).outcome
        = .ok (bulk_insert_candles db.candles cs iid "1d").2.length
    ∧ (process_instrument env imap db iid).db.candles
        = (bulk_insert_candles db.candles cs iid "1d").1
    ∧ (process_instrument env imap db iid).db.snapshots = db.snapshots := by
  cases h : lookupInstr imap iid <;> simp [process_instrument, h, hc]

theorem process_instrument_count_other (env : Env)
    (imap : List (Int × Instrument)) (db : DB) (iid j : Int) (hj : j ≠ iid) :
    countRowsFor (process_instrument env imap db iid).db.candles j
      = countRowsFor db.candles j := by
  cases hc : env.candles iid with
  | error e => rw [(process_instrument_fetch_error env imap db iid e hc).2.1]
  | ok cs =>
      rw [(process_instrument_fetch_ok env imap db iid cs hc).2.1]
      exact bulk_insert_count_other db.candles cs iid "1d" j hj

theorem process_instrument_fetch_eff (env : Env)
    (imap : List (Int × Instrument)) (db : DB) (iid : Int) :
    Eff.candleFetch iid ∈ (process_instrument env imap db iid).effs := by
  cases h : lookupInstr imap iid <;> cases hc : env.candles iid <;>
    simp [process_instrument, h, hc]

theorem process_instrument_empty_imap (env : Env) (db : DB) (iid : Int) :
    (process_instrument env [] db iid).db.instruments = db.instruments
    ∧ ∀ j, Eff.instrumentUpsert j ∉ (process_instrument env [] db iid).effs := by
  cases hc : env.candles iid <;> simp [process_instrument, lookupInstr, hc]

/-- C3: any run type other than exactly `"market_open"` or
`"market_close"` (case-sensitively) makes `run_data_pipeline` raise the
`ValueError` before any I/O: the store is untouched and the effect trace
is empty — no portfolio fetch, no database call, no snapshot. -/
theorem C3_invalid_run_type_rejected_before_io (env : Env) (db : DB)
    (run_id run_type : String)
    (h1 : run_type ≠ "market_open") (h2 : run_type ≠ "market_close") :
    run_data_pipeline env db run_id run_type
      = (.error (.valueError ("Invalid run_type: " ++ run_type
          ++ ". Must be \x22market_open\x22 or \x22market_close\x22.")), db, []) := by
  have h : ¬(run_type = "market_open" ∨ run_type = "market_close") := by
    rintro (h | h)
    · exact h1 h
    · exact h2 h
  rw [run_data_pipeline, if_pos h]

/-- Closed witness for C3: the run type `"Market_Open"` is rejected with
an untouched store and an empty effect trace. -/
theorem C3_invalid_run_type_witness :
    run_data_pipeline
        { portfolio := .error "503", catalog := .ok [],
          candles := fun _ => .ok [] } ⟨[], [], []⟩ "rid" "Market_Open"
      = (.error (.valueError ("Invalid run_type: " ++ "Market_Open"
          ++ ". Must be \x22market_open\x22 or \x22market_close\x22.")),
         ⟨[], [], []⟩, []) :=
  C3_invalid_run_type_rejected_before_io _ _ "rid" "Market_Open"
    (by decide) (by decide)

/-- C4: when the portfolio fetch fails, `run_data_pipeline` re-raises it
as a `PipelineError` wrapping the cause; the store is unchanged (no
snapshot persisted) and the only effect is the portfolio fetch itself —
no per-instrument work happens. -/
theorem C4_portfolio_fetch_failure_fatal (env : Env) (db : DB)
    (run_id run_type : String) (e : String)
    (hrt : run_type = "market_open" ∨ run_type = "market_close")
    (hp : env.portfolio = .error e) :
    run_data_pipeline env db run_id run_type
      = (.error (.pipelineError ("Portfolio fetch failed: " ++ e)), db,
         [.portfolioFetch]) := by
  rw [run_data_pipeline, if_neg (not_not_intro hrt), hp]

theorem process_instruments_accounting (env : Env)
    (imap : List (Int × Instrument)) (ids : List Int) : ∀ db : DB,
    ((process_instruments env imap db ids).processed.length
        + (process_instruments env imap db ids).errors.length = ids.length)
    ∧ ((process_instruments env imap db ids).counts.map Prod.fst
        = (process_instruments env imap db ids).processed)
    ∧ (∀ i ∈ (process_instruments env imap db ids).processed, i ∈ ids)
    ∧ (∀ q ∈ (process_instruments env imap db ids).errors, q.1 ∈ ids) := by
  induction ids with
  | nil =>
      intro db
      simp [process_instruments]
  | cons iid rest ih =>
      intro db
      rcases ih (process_instrument env imap db iid).db with ⟨ih1, ih2, ih3, ih4⟩
      cases hout : (process_instrument env imap db iid).outcome with
      | ok n =>
          refine ⟨?_, ?_, ?_, ?_⟩ <;>
            simp only [process_instruments, hout]
          · simp only [List.length_cons]
            omega
          · simp [ih2]
          · intro i hi
            simp only [List.mem_cons] at hi
            rcases hi with h | h
            · simp [h]
            · exact List.mem_cons_of_mem iid (ih3 i h)
          · intro q hq
            exact List.mem_cons_of_mem iid (ih4 q hq)
      | error e =>
          refine ⟨?_, ?_, ?_, ?_⟩ <;>
            simp only [process_instruments, hout]
          · simp only [List.length_cons]
            omega
          · simp [ih2]
          · intro i hi
            exact List.mem_cons_of_mem iid (ih3 i hi)
          · intro q hq
            simp only [List.mem_cons] at hq
            rcases hq with h | h
            · simp [h]
            · exact List.mem_cons_of_mem iid (ih4 q h)

theorem process_instruments_disjoint (env : Env)
    (imap : List (Int × Instrument)) (ids : List Int) : ∀ db : DB,
    ids.Nodup →
    (process_instruments env imap db ids).processed.Nodup
    ∧ (∀ i ∈ (process_instruments env imap db ids).processed,
        i ∉ (process_instruments env imap db ids).errors.map Prod.fst) := by
  induction ids with
  | nil =>
      intro db _
      simp [process_instruments]
  | cons iid rest ih =>
      intro db hnd
      rcases List.nodup_cons.mp hnd with ⟨hni, hndr⟩
      rcases ih (process_instrument env imap db iid).db hndr with ⟨ih1, ih2⟩
      rcases process_instruments_accounting env imap rest
          (process_instrument env imap db iid).db with ⟨_, _, hsub, hesub⟩
      cases hout : (process_instrument env imap db iid).outcome with
      | ok n =>
          constructor <;> simp only [process_instruments, hout]
          · rw [List.nodup_cons]
            exact ⟨fun h => hni (hsub iid h), ih1⟩
          · intro i hi
            simp only [List.mem_cons] at hi
            rcases hi with h | h
            · subst h
              intro hmem
              rcases List.mem_map.mp hmem with ⟨q, hq, hq1⟩
              exact hni (hq1 ▸ hesub q hq)
            · exact ih2 i h
      | error e =>
          constructor <;> simp only [process_instruments, hout]
          · exact ih1
          · intro i hi
            simp only [List.map_cons, List.mem_cons]
            rintro (h | h)
            · exact hni (h ▸ hsub i hi)
            · exact ih2 i hi h

theorem process_instruments_count_other (env : Env)
    (imap : List (Int × Instrument)) (ids : List Int) : ∀ (db : DB) (j : Int),
    j ∉ ids →
    countRowsFor (process_instruments env imap db ids).db.candles j
      = countRowsFor db.candles j := by
  induction ids with
  | nil => intro db j _; rfl
  | cons iid rest ih =>
      intro db j hj
      have hj1 : j ≠ iid := fun h => hj (h ▸ List.mem_cons_self iid rest)
      have hj2 : j ∉ rest := fun h => hj (List.mem_cons_of_mem iid h)
      have hstep := process_instrument_count_other env imap db iid j hj1
      have hrest := ih (process_instrument env imap db iid).db j hj2
      cases hout : (process_instrument env imap db iid).outcome <;>
        simp only [process_instruments, hout] <;> rw [hrest, hstep]

theorem process_instruments_counts_growth (env : Env)
    (imap : List (Int × Instrument)) (ids : List Int) : ∀ db : DB,
    ids.Nodup →
    ∀ q ∈ (process_instruments env imap db ids).counts,
      countRowsFor (process_instruments env imap db ids).db.candles q.1
        = countRowsFor db.candles q.1 + q.2 := by
  induction ids with
  | nil =>
      intro db _ q hq
      simp [process_instruments] at hq
  | cons iid rest ih =>
      intro db hnd q hq
      rcases List.nodup_cons.mp hnd with ⟨hni, hndr⟩
      rcases process_instruments_accounting env imap rest
          (process_instrument env imap db iid).db with ⟨_, hkeys, hsub, _⟩
      cases hout : (process_instrument env imap db iid).outcome with
      | error e =>
          simp only [process_instruments, hout] at hq ⊢
          have hgrow := ih (process_instrument env imap db iid).db hndr q hq
          rw [hgrow]
          rcases hc : env.candles iid with e2 | cs
          · rw [(process_instrument_fetch_error env imap db iid e2 hc).2.1]
          · have h1 := (process_instrument_fetch_ok env imap db iid cs hc).1
            rw [h1] at hout
            exact absurd hout (by simp)
      | ok n =>
          simp only [process_instruments, hout] at hq ⊢
          rcases hc : env.candles iid with e2 | cs
          · have h1 := (process_instrument_fetch_error env imap db iid e2 hc).1
            rw [h1] at hout
            exact absurd hout (by simp)
          · have hok := process_instrument_fetch_ok env imap db iid cs hc
            simp only [List.mem_cons] at hq
            rcases hq with h | h
            · subst h
              simp only
              rw [process_instruments_count_other env imap rest _ iid hni]
              rw [hok.2.1]
              have hn : n = (bulk_insert_candles db.candles cs iid "1d").2.length := by
                rw [hok.1] at hout
                exact (Except.ok.inj hout).symm
              rw [hn]
              exact bulk_insert_count_self db.candles cs iid "1d"
            · have hgrow := ih (process_instrument env imap db iid).db hndr q h
              rw [hgrow]
              have hq1 : q.1 ≠ iid := by
                intro hqe
                apply hni
                rw [← hqe]
                have : q.1 ∈ (process_instruments env imap
                    (process_instrument env imap db iid).db rest).counts.map
                      Prod.fst := List.mem_map_of_mem Prod.fst h
                rw [hkeys] at this
                exact hsub q.1 this
              rw [process_instrument_count_other env imap db iid q.1 hq1]

theorem process_instruments_candles_provenance (env : Env)
    (imap : List (Int × Instrument)) (ids : List Int) : ∀ db : DB,
    ∀ row ∈ (process_instruments env imap db ids).db.candles,
      row ∈ db.candles
        ∨ row.instrument ∈ (process_instruments env imap db ids).processed := by
  induction ids with
  | nil =>
      intro db row h
      exact Or.inl h
  | cons iid rest ih =>
      intro db row hrow
      cases hout : (process_instrument env imap db iid).outcome with
      | ok n =>
          simp only [process_instruments, hout] at hrow ⊢
          rcases ih (process_instrument env imap db iid).db row hrow with h | h
          · rcases hc : env.candles iid with e2 | cs
            · rw [(process_instrument_fetch_error env imap db iid e2 hc).2.1] at h
              exact Or.inl h
            · rw [(process_instrument_fetch_ok env imap db iid cs hc).2.1] at h
              rcases bulk_insert_provenance db.candles cs iid "1d" row h with h2 | h2
              · exact Or.inl h2
              · exact Or.inr (by simp [h2])
          · exact Or.inr (List.mem_cons_of_mem iid h)
      | error e =>
          simp only [process_instruments, hout] at hrow ⊢
          rcases ih (process_instrument env imap db iid).db row hrow with h | h
          · rcases hc : env.candles iid with e2 | cs
            · rw [(process_instrument_fetch_error env imap db iid e2 hc).2.1] at h
              exact Or.inl h
            · have h1 := (process_instrument_fetch_ok env imap db iid cs hc).1
              rw [h1] at hout
              exact absurd hout (by simp)
          · exact Or.inr h

theorem process_instruments_fetch_all (env : Env)
    (imap : List (Int × Instrument)) (ids : List Int) : ∀ db : DB,
    ∀ iid ∈ ids,
      Eff.candleFetch iid ∈ (process_instruments env imap db ids).effs := by
  induction ids with
  | nil => intro db iid h; simp at h
  | cons x rest ih =>
      intro db iid h
      cases hout : (process_instrument env imap db x).outcome <;>
        simp only [process_instruments, hout, List.mem_append] <;>
        rcases List.mem_cons.mp h with heq | hmem
      · exact Or.inl (heq ▸ process_instrument_fetch_eff env imap db x)
      · exact Or.inr (ih _ iid hmem)
      · exact Or.inl (heq ▸ process_instrument_fetch_eff env imap db x)
      · exact Or.inr (ih _ iid hmem)

theorem process_instruments_empty_imap (env : Env) (ids : List Int) :
    ∀ db : DB,
    (process_instruments env [] db ids).db.instruments = db.instruments
    ∧ ∀ j, Eff.instrumentUpsert j ∉ (process_instruments env [] db ids).effs := by
  induction ids with
  | nil => intro db; simp [process_instruments]
  | cons x rest ih =>
      intro db
      rcases process_instrument_empty_imap env db x with ⟨h1, h2⟩
      rcases ih (process_instrument env [] db x).db with ⟨ih1, ih2⟩
      have hinstr : (process_instrument env [] db x).db.instruments
          = db.instruments := h1
      cases hout : (process_instrument env [] db x).outcome <;>
        constructor <;> simp only [process_instruments, hout]
      · rw [ih1, hinstr]
      · intro j
        simp only [List.mem_append]
        rintro (h | h)
        · exact h2 j h
        · exact ih2 j h
      · rw [ih1, hinstr]
      · intro j
        simp only [List.mem_append]
        rintro (h | h)
        · exact h2 j h
        · exact ih2 j h

theorem insertAsc_perm (x : Int) (l : List Int) :
    (insertAsc x l).Perm (x :: l) := by
  induction l with
  | nil => exact List.Perm.refl _
  | cons y ys ih =>
      by_cases h : x ≤ y
      · simp only [insertAsc, h, if_true, ite_true]
        exact List.Perm.refl _
      · simp only [insertAsc, h, if_false, ite_false]
        exact (List.Perm.cons y ih).trans (List.Perm.swap x y ys)

theorem sortAsc_perm (l : List Int) : (sortAsc l).Perm l := by
  induction l with
  | nil => exact List.Perm.refl _
  | cons a as ih =>
      exact (insertAsc_perm a (sortAsc as)).trans (List.Perm.cons a ih)

theorem sortAsc_length (l : List Int) : (sortAsc l).length = l.length :=
  (sortAsc_perm l).length_eq

theorem sortAsc_mem (l : List Int) (i : Int) : i ∈ sortAsc l ↔ i ∈ l :=
  (sortAsc_perm l).mem_iff

theorem sortAsc_nodup (l : List Int) (h : l.Nodup) : (sortAsc l).Nodup :=
  ((sortAsc_perm l).nodup_iff).mpr h

theorem sortAsc_eq_nil (l : List Int) (h : sortAsc l = []) : l = [] := by
  have := sortAsc_length l
  rw [h] at this
  exact List.length_eq_zero.mp this.symm

/-- Unfolding of `run_data_pipeline` on a valid run type, a successful
portfolio fetch and a nonempty instrument set: snapshot persisted, one
catalog fetch, then the per-instrument loop. -/
theorem run_data_pipeline_with_instruments (env : Env) (db : DB)
    (run_id run_type : String) (p : ClientPortfolio)
    (hrt : run_type = "market_open" ∨ run_type = "market_close")
    (hp : env.portfolio = .ok p)
    (hne : sortAsc (p.positions.map (·.instrument_id)).dedup ≠ []) :
    run_data_pipeline env db run_id run_type =
      (let db1 : DB := { db with snapshots := db.snapshots
          ++ [⟨"portfolio_snapshot:" ++ toString db.snapshots.length,
               portfolio_to_record p run_type⟩] }
       let ids := sortAsc (p.positions.map (·.instrument_id)).dedup
       let loop := process_instruments env (resolve_instruments env ids) db1 ids
       (.ok { run_id := run_id, run_type := run_type,
              snapshot_id := "portfolio_snapshot:"
                ++ toString db.snapshots.length,
              instruments_processed := loop.processed.length,
              instruments_failed := loop.errors.length,
              candle_counts := loop.counts, errors := loop.errors },
        loop.db,
        [.portfolioFetch, .snapshotCreate, .catalogFetch] ++ loop.effs)) := by
  rw [run_data_pipeline, if_neg (not_not_intro hrt), hp]
  have hfalse : (sortAsc (p.positions.map (·.instrument_id)).dedup).isEmpty
      = false := by
    cases h : sortAsc (p.positions.map (·.instrument_id)).dedup
    · exact absurd h hne
    · rfl
  simp only [hfalse, Bool.false_eq_true, if_false, ite_false]

/-- Unfolding of `run_data_pipeline` on a valid run type, a successful
portfolio fetch and an empty instrument set: snapshot persisted, zero
counts, and no market-data calls. -/
theorem run_data_pipeline_no_instruments (env : Env) (db : DB)
    (run_id run_type : String) (p : ClientPortfolio)
    (hrt : run_type = "market_open" ∨ run_type = "market_close")
    (hp : env.portfolio = .ok p)
    (hids : sortAsc (p.positions.map (·.instrument_id)).dedup = []) :
    run_data_pipeline env db run_id run_type =
      (.ok { run_id := run_id, run_type := run_type,
             snapshot_id := "portfolio_snapshot:"
               ++ toString db.snapshots.length,
             instruments_processed := 0, instruments_failed := 0,
             candle_counts := [], errors := [] },
       { db with snapshots := db.snapshots
          ++ [⟨"portfolio_snapshot:" ++ toString db.snapshots.length,
               portfolio_to_record p run_type⟩] },
       [.portfolioFetch, .snapshotCreate]) := by
  rw [run_data_pipeline, if_neg (not_not_intro hrt), hp]
  simp only [hids, List.isEmpty_nil, if_true, ite_true]

/-- Closed witness for C4: a failing portfolio fetch aborts the run with
the wrapping `PipelineError` and no snapshot. -/
theorem C4_portfolio_fetch_failure_witness :
    run_data_pipeline
        { portfolio := .error "503", catalog := .ok [],
          candles := fun _ => .ok [] } ⟨[], [], []⟩ "rid" "market_close"
      = (.error (.pipelineError ("Portfolio fetch failed: " ++ "503")),
         ⟨[], [], []⟩, [.portfolioFetch]) :=
  C4_portfolio_fetch_failure_fatal _ _ "rid" "market_close" "503"
    (Or.inr rfl) rfl

/-- C7: a failing batched catalog fetch is non-fatal — the metadata map
is empty, so no instrument upsert happens and the stored instruments are
untouched, yet the run still returns a summary (no pipeline error) and a
candle fetch is still attempted for every instrument id of the
portfolio. -/
theorem C7_catalog_failure_nonfatal (env : Env) (db : DB)
    (run_id run_type : String) (ce : String) (p : ClientPortfolio)
    (hrt : run_type = "market_open" ∨ run_type = "market_close")
    (hp : env.portfolio = .ok p)
    (hcat : env.catalog = .error ce) :
    ∃ s db2 effs,
      run_data_pipeline env db run_id run_type = (.ok s, db2, effs)
      ∧ (∀ ids, resolve_instruments env ids = [])
      ∧ db2.instruments = db.instruments
      ∧ (∀ j, Eff.instrumentUpsert j ∉ effs)
      ∧ (∀ iid, iid ∈ (p.positions.map (·.instrument_id)).dedup →
          Eff.candleFetch iid ∈ effs) := by
  have hres : ∀ ids, resolve_instruments env ids = [] := by
    intro ids
    simp [resolve_instruments, hcat]
  by_cases hids : sortAsc (p.positions.map (·.instrument_id)).dedup = []
  · refine ⟨_, _, _,
      run_data_pipeline_no_instruments env db run_id run_type p hrt hp hids,
      hres, rfl, ?_, ?_⟩
    · intro j
      simp
    · intro iid hi
      rw [sortAsc_eq_nil _ hids] at hi
      simp at hi
  · refine ⟨_, _, _,
      run_data_pipeline_with_instruments env db run_id run_type p hrt hp hids,
      hres, ?_, ?_, ?_⟩
    · show (process_instruments env _ _ _).db.instruments = db.instruments
      rw [hres]
      exact (process_instruments_empty_imap env _ _).1
    · intro j
      show Eff.instrumentUpsert j ∉
        [Eff.portfolioFetch, Eff.snapshotCreate, Eff.catalogFetch]
          ++ (process_instruments env _ _ _).effs
      rw [hres]
      simp only [List.mem_append]
      rintro (h | h)
      · simp at h
      · exact (process_instruments_empty_imap env _ _).2 j h
    · intro iid hi
      show Eff.candleFetch iid ∈
        [Eff.portfolioFetch, Eff.snapshotCreate, Eff.catalogFetch]
          ++ (process_instruments env _ _ _).effs
      refine List.mem_append_right _ ?_
      exact process_instruments_fetch_all env _ _ _ iid
        ((sortAsc_mem _ iid).mpr hi)

/-- Closed witness for C7: a catalog timeout leaves the instrument table
untouned yet the run completes and still fetches candles for instrument
7. -/
theorem C7_catalog_failure_nonfatal_witness :
    ∃ s db2 effs,
      run_data_pipeline
          { portfolio := .ok ⟨[⟨1, 7⟩], 10, Option.none⟩,
            catalog := .error "timeout", candles := fun _ => .ok [] }
          ⟨[], [], []⟩ "rid" "market_open" = (.ok s, db2, effs)
      ∧ (∀ ids, resolve_instruments
          { portfolio := .ok ⟨[⟨1, 7⟩], 10, Option.none⟩,
            catalog := .error "timeout", candles := fun _ => .ok [] } ids = [])
      ∧ db2.instruments = (⟨[], [], []⟩ : DB).instruments
      ∧ (∀ j, Eff.instrumentUpsert j ∉ effs)
      ∧ (∀ iid, iid ∈ (((⟨[⟨1, 7⟩], 10, Option.none⟩ : ClientPortfolio)).positions.map
            (·.instrument_id)).dedup →
          Eff.candleFetch iid ∈ effs) :=
  C7_catalog_failure_nonfatal _ ⟨[], [], []⟩ "rid" "market_open" "timeout"
    ⟨[⟨1, 7⟩], 10, Option.none⟩ (Or.inl rfl) rfl rfl

/-- C2: per-instrument failure isolation — with two instruments where
exactly the first one's candle fetch fails, the summary counts one
processed and one failed, the failure is recorded as the
`(instrument_id, message)` error record, the candle-count map has exactly
the successful instrument as key, and only the successful instrument's
candles were added to storage. -/
theorem C2_per_instrument_failure_isolated (env : Env) (db : DB)
    (run_id run_type : String) (p : ClientPortfolio) (a b : Int)
    (msg : String) (cb : List Candle)
    (hrt : run_type = "market_open" ∨ run_type = "market_close")
    (hp : env.portfolio = .ok p)
    (hids : sortAsc (p.positions.map (·.instrument_id)).dedup = [a, b])
    (ha : env.candles a = .error msg)
    (hb : env.candles b = .ok cb) :
    ∃ s db2 effs,
      run_data_pipeline env db run_id run_type = (.ok s, db2, effs)
      ∧ s.instruments_processed = 1
      ∧ s.instruments_failed = 1
      ∧ s.errors = [(a, msg)]
      ∧ s.candle_counts.map Prod.fst = [b]
      ∧ (∀ row ∈ db2.candles, row ∈ db.candles ∨ row.instrument = b) := by
  have hne : sortAsc (p.positions.map (·.instrument_id)).dedup ≠ [] := by
    rw [hids]
    simp
  have heq := run_data_pipeline_with_instruments env db run_id run_type p
    hrt hp hne
  rw [hids] at heq
  set imap := resolve_instruments env [a, b] with himap
  set db1 : DB := { db with snapshots := db.snapshots
      ++ [⟨"portfolio_snapshot:" ++ toString db.snapshots.length,
           portfolio_to_record p run_type⟩] } with hdb1
  have houtA := (process_instrument_fetch_error env imap db1 a msg ha).1
  have hcanA := (process_instrument_fetch_error env imap db1 a msg ha).2.1
  have houtB := (process_instrument_fetch_ok env imap
    (process_instrument env imap db1 a).db b cb hb).1
  have hcanB := (process_instrument_fetch_ok env imap
    (process_instrument env imap db1 a).db b cb hb).2.1
  refine ⟨_, _, _, heq, ?_, ?_, ?_, ?_, ?_⟩
  · show (process_instruments env imap db1 [a, b]).processed.length = 1
    simp [process_instruments, houtA, houtB]
  · show (process_instruments env imap db1 [a, b]).errors.length = 1
    simp [process_instruments, houtA, houtB]
  · show (process_instruments env imap db1 [a, b]).errors = [(a, msg)]
    simp [process_instruments, houtA, houtB]
  · show (process_instruments env imap db1 [a, b]).counts.map Prod.fst = [b]
    simp [process_instruments, houtA, houtB]
  · show ∀ row ∈ (process_instruments env imap db1 [a, b]).db.candles,
      row ∈ db.candles ∨ row.instrument = b
    intro row hrow
    have hdbc : (process_instruments env imap db1 [a, b]).db.candles
        = (process_instrument env imap
            (process_instrument env imap db1 a).db b).db.candles := by
      simp [process_instruments, houtA, houtB]
    rw [hdbc, hcanB, hcanA] at hrow
    have : db1.candles = db.candles := rfl
    rw [this] at hrow
    exact bulk_insert_provenance db.candles cb b "1d" row hrow

/-- Closed witness for C2: instrument 1001's fetch fails with `"boom"`,
instrument 1002 succeeds; the summary reports one processed, one failed,
the single error record, and storage only gains 1002's candles. -/
theorem C2_per_instrument_failure_isolated_witness :
    ∃ s db2 effs,
      run_data_pipeline
          { portfolio := .ok ⟨[⟨1, 1002⟩, ⟨2, 1001⟩], 100, some 5⟩,
            catalog := .ok [],
            candles := fun iid =>
              if iid = 1001 then .error "boom"
              else .ok [⟨1002, "2024-01-02", 10, 12, 9, 11, some 100⟩] }
          ⟨[], [], []⟩ "rid" "market_open" = (.ok s, db2, effs)
      ∧ s.instruments_processed = 1
      ∧ s.instruments_failed = 1
      ∧ s.errors = [(1001, "boom")]
      ∧ s.candle_counts.map Prod.fst = [1002]
      ∧ (∀ row ∈ db2.candles,
          row ∈ (⟨[], [], []⟩ : DB).candles ∨ row.instrument = 1002) :=
  C2_per_instrument_failure_isolated _ ⟨[], [], []⟩ "rid" "market_open"
    ⟨[⟨1, 1002⟩, ⟨2, 1001⟩], 100, some 5⟩ 1001 1002 "boom"
    [⟨1002, "2024-01-02", 10, 12, 9, 11, some 100⟩]
    (Or.inl rfl) rfl (by decide) (by rfl) (by rfl)

/-- C10: summary accounting — for every run returning a summary,
processed plus failed equals the number of distinct instrument ids among
the portfolio's open positions, the error list has exactly
`instruments_failed` entries, and `candle_counts` has exactly
`instruments_processed` keys, pairwise distinct, disjoint from the failed
instruments, drawn from the position instrument ids, and each mapped to
the number of candle rows added for that instrument in this run. -/
theorem C10_summary_accounting (env : Env) (db : DB)
    (run_id run_type : String) (p : ClientPortfolio) (s : Summary)
    (db2 : DB) (effs : List Eff)
    (hp : env.portfolio = .ok p)
    (hrun : run_data_pipeline env db run_id run_type = (.ok s, db2, effs)) :
    (s.instruments_processed + s.instruments_failed
        = (p.positions.map (·.instrument_id)).dedup.length)
    ∧ s.errors.length = s.instruments_failed
    ∧ s.candle_counts.length = s.instruments_processed
    ∧ (s.candle_counts.map Prod.fst).Nodup
    ∧ (∀ q ∈ s.candle_counts, q.1 ∉ s.errors.map Prod.fst)
    ∧ (∀ q ∈ s.candle_counts, q.1 ∈ p.positions.map (·.instrument_id))
    ∧ (∀ q ∈ s.candle_counts,
        countRowsFor db2.candles q.1 = countRowsFor db.candles q.1 + q.2) := by
  by_cases hrt : run_type = "market_open" ∨ run_type = "market_close"
  · by_cases hids : sortAsc (p.positions.map (·.instrument_id)).dedup = []
    · rw [run_data_pipeline_no_instruments env db run_id run_type p hrt hp
        hids] at hrun
      have hs := congrArg (fun t => t.1) hrun
      have hdb2 := congrArg (fun t => t.2.1) hrun
      simp only [Except.ok.injEq] at hs hdb2
      rw [← hs]
      have hl : (p.positions.map (·.instrument_id)).dedup = [] :=
        sortAsc_eq_nil _ hids
      refine ⟨by simp [hl], rfl, rfl, by simp, ?_, ?_, ?_⟩ <;>
        intro q hq <;> simp at hq
    · rw [run_data_pipeline_with_instruments env db run_id run_type p hrt hp
        hids] at hrun
      have hs := congrArg (fun t => t.1) hrun
      have hdb2 := congrArg (fun t => t.2.1) hrun
      simp only [Except.ok.injEq] at hs hdb2
      rw [← hs, ← hdb2]
      have hnd : (sortAsc (p.positions.map (·.instrument_id)).dedup).Nodup :=
        sortAsc_nodup _ (List.nodup_dedup _)
      rcases process_instruments_accounting env
        (resolve_instruments env (sortAsc (p.positions.map (·.instrument_id)).dedup))
        (sortAsc (p.positions.map (·.instrument_id)).dedup)
        { db with snapshots := db.snapshots
            ++ [⟨"portfolio_snapshot:" ++ toString db.snapshots.length,
                 portfolio_to_record p run_type⟩] } with ⟨hlen, hkeys, hpsub, _⟩
      rcases process_instruments_disjoint env
        (resolve_instruments env (sortAsc (p.positions.map (·.instrument_id)).dedup))
        (sortAsc (p.positions.map (·.instrument_id)).dedup)
        { db with snapshots := db.snapshots
            ++ [⟨"portfolio_snapshot:" ++ toString db.snapshots.length,
                 portfolio_to_record p run_type⟩] } hnd with ⟨hndp, hdisj⟩
      have hgrow := process_instruments_counts_growth env
        (resolve_instruments env (sortAsc (p.positions.map (·.instrument_id)).dedup))
        (sortAsc (p.positions.map (·.instrument_id)).dedup)
        { db with snapshots := db.snapshots
            ++ [⟨"portfolio_snapshot:" ++ toString db.snapshots.length,
                 portfolio_to_record p run_type⟩] } hnd
      refine ⟨?_, rfl, ?_, ?_, ?_, ?_, ?_⟩
      · simp only
        rw [hlen, sortAsc_length]
      · simp only
        rw [← hkeys, List.length_map]
      · simp only
        rw [hkeys]
        exact hndp
      · intro q hq
        simp only at hq ⊢
        have : q.1 ∈ (process_instruments env
            (resolve_instruments env
              (sortAsc (p.positions.map (·.instrument_id)).dedup))
            { db with snapshots := db.snapshots
                ++ [⟨"portfolio_snapshot:" ++ toString db.snapshots.length,
                     portfolio_to_record p run_type⟩] }
            (sortAsc (p.positions.map (·.instrument_id)).dedup)).processed := by
          rw [← hkeys]
          exact List.mem_map_of_mem Prod.fst hq
        exact hdisj q.1 this
      · intro q hq
        simp only at hq
        have : q.1 ∈ (process_instruments env
            (resolve_instruments env
              (sortAsc (p.positions.map (·.instrument_id)).dedup))
            { db with snapshots := db.snapshots
                ++ [⟨"portfolio_snapshot:" ++ toString db.snapshots.length,
                     portfolio_to_record p run_type⟩] }
            (sortAsc (p.positions.map (·.instrument_id)).dedup)).processed := by
          rw [← hkeys]
          exact List.mem_map_of_mem Prod.fst hq
        have := hpsub q.1 this
        rw [sortAsc_mem] at this
        exact (List.mem_dedup).mp this
      · intro q hq
        simp only at hq ⊢
        exact hgrow q hq
  · rw [run_data_pipeline, if_pos hrt] at hrun
    exact absurd (congrArg (fun t => t.1) hrun) (by simp)

/-- Closed witness for C10: an empty portfolio yields the zero summary,
whose accounting trivially matches the empty position list. -/
theorem C10_summary_accounting_witness :
    ((0 : Nat) + 0
        = ((([] : List Position).map (·.instrument_id)).dedup).length)
    ∧ (([] : List (Int × String)).length = 0)
    ∧ (([] : List (Int × Nat)).length = 0)
    ∧ (([] : List (Int × Nat)).map Prod.fst).Nodup
    ∧ (∀ q ∈ ([] : List (Int × Nat)),
        q.1 ∉ ([] : List (Int × String)).map Prod.fst)
    ∧ (∀ q ∈ ([] : List (Int × Nat)),
        q.1 ∈ ([] : List Position).map (·.instrument_id))
    ∧ (∀ q ∈ ([] : List (Int × Nat)),
        countRowsFor (⟨[⟨"portfolio_snapshot:0", ⟨50, 50, 0, 0, [], "market_close"⟩⟩],
            [], []⟩ : DB).candles q.1
          = countRowsFor (⟨[], [], []⟩ : DB).candles q.1 + q.2) := by
  have h := C10_summary_accounting
    { portfolio := .ok ⟨[], 50, Option.none⟩, catalog := .ok [],
      candles := fun _ => .ok [] }
    ⟨[], [], []⟩ "r" "market_close" ⟨[], 50, Option.none⟩
    ⟨"r", "market_close", "portfolio_snapshot:0", 0, 0, [], []⟩
    ⟨[⟨"portfolio_snapshot:0", ⟨50, 50, 0, 0, [], "market_close"⟩⟩], [], []⟩
    [.portfolioFetch, .snapshotCreate] rfl (by rfl)
  exact h

end ETA
